import Mathlib

/-!
Verification development for the `buttersink` snapshot-synchronization driver
(`buttersink/buttersink.py`).  The file shallowly embeds the driver's
`parseSink` function (including the URI regular expression it compiles) and the
`main` transfer loop.  The collaborating store and planner modules
(`ButterStore`, `S3Store`, `SSHStore`, `BestDiffs`) are not part of the
embedded source; their observable behaviour is abstracted as an environment of
oracles, and the driver's calls into them are recorded as events so that
temporal claims about the loop can be stated over event traces.
-/

instance {ε α : Type} [DecidableEq ε] [DecidableEq α] : DecidableEq (Except ε α) :=
  fun x y =>
  match x, y with
  | Except.ok a, Except.ok b =>
    if h : a = b then isTrue (by rw [h])
    else isFalse (by intro hc; cases hc; exact h rfl)
  | Except.ok _, Except.error _ => isFalse (by intro hc; cases hc)
  | Except.error _, Except.ok _ => isFalse (by intro hc; cases hc)
  | Except.error e, Except.error f =>
    if h : e = f then isTrue (by rw [h])
    else isFalse (by intro hc; cases hc; exact h rfl)

/-- Strings are modelled as lists of characters so that the URI regular
expression can be modelled by structural recursion. -/
abbrev Str := List Char

/-- The newline character, written out to avoid escape-sequence literals. -/
def nl : Char := Char.ofNat 10

/-- Store open modes, from `parseSink`: `'r'`, `'w'`, `'a'`. -/
inductive Mode where
  | r
  | w
  | a
deriving DecidableEq, Repr

/-- Python exceptions that the embedded fragment of the driver can raise.
`parseErr` is `Exception("Can't parse snapshot store ...")`, `keyErr` is the
`KeyError` from the `Sinks` dictionary lookup, `attrErr` is the
`AttributeError` from calling `.endswith` on `None` (or setting an attribute
on `None`), `missingDiff` is `Exception("Missing diff.  Can't fully
replicate.")`, `indexErr` is the `IndexError` from `missingDiffs[0]`, and
`sendErr` stands for any exception raised by `diff.sendTo`. -/
inductive PErr where
  | parseErr (uri : Str)
  | keyErr (method : Str)
  | attrErr
  | missingDiff
  | indexErr
  | sendErr
deriving DecidableEq, Repr

/-- The named groups produced by a successful match of the URI pattern
`^((?P<method>[^:/]*)://)?(?P<fullpath>(?P<host>[^/]*)(/(?P<path>.*))?)$`. -/
structure URIMatch where
  method : Option Str
  host : Str
  path : Option Str
  fullpath : Str
deriving DecidableEq, Repr

/-- Model of the optional group `((?P<method>[^:/]*)://)?`: the method is the
maximal run of characters other than `:` and `/`, and it participates in the
match exactly when it is followed by the literal `://`.  Since the method class
excludes both `:` and `/`, the only candidate split point is the first `:` of
the string, so no further backtracking over the method is possible. -/
def splitMethod (s : Str) : Option (Str × Str) :=
  let m := s.takeWhile (fun c => !(c == ':' || c == '/'))
  match s.drop m.length with
  | ':' :: '/' :: '/' :: rest => some (m, rest)
  | _ => none

/-- Model of `(?P<path>.*)$` applied to the remainder `p` of the subject, in
Python `re` semantics: `.` does not match a newline, and `$` (without
`re.MULTILINE`) matches at the end of the subject or just before a newline
that ends the subject.  Hence the tail matches exactly when it contains no
newline, or its only newline is the final character; the group value is the
tail without that trailing newline. -/
def matchDotStarEnd (p : Str) : Option Str :=
  if p.all (fun c => !(c == nl)) then some p
  else if p.dropLast.all (fun c => !(c == nl)) && p.getLast? == some nl then
    some p.dropLast
  else none

/-- Model of `(?P<fullpath>(?P<host>[^/]*)(/(?P<path>.*))?)$`: the host is the
maximal run of non-`/` characters; if anything remains it necessarily starts
with `/`, and the optional path group must then match the rest (skipping the
group instead cannot satisfy `$`, because the remainder starts with `/`).
Returns `(host, path group, fullpath group)`. -/
def matchFullpath (f : Str) : Option (Str × Option Str × Str) :=
  let host := f.takeWhile (fun c => !(c == '/'))
  match f.dropWhile (fun c => !(c == '/')) with
  | [] => some (host, none, host)
  | _ :: tailp =>
    match matchDotStarEnd tailp with
    | some pg => some (host, some pg, host ++ '/' :: pg)
    | none => none

/-- Model of `pattern.match(uri)` for the compiled URI pattern of `parseSink`.
The greedy optional method group is tried first; if the rest of the pattern
fails with it, the regex engine retries with the group not participating. -/
def matchURI (s : Str) : Option URIMatch :=
  match splitMethod s with
  | some (m, rest) =>
    match matchFullpath rest with
    | some (h, p, fp) => some ⟨some m, h, p, fp⟩
    | none =>
      match matchFullpath s with
      | some (h, p, fp) => some ⟨none, h, p, fp⟩
      | none => none
  | none =>
    match matchFullpath s with
    | some (h, p, fp) => some ⟨none, h, p, fp⟩
    | none => none

/-- The default method substituted when the URI has no `method://` part. -/
def btrfsName : Str := "btrfs".toList

/-- Model of Python `path.endswith("/")`. -/
def endswithSlash (p : Str) : Bool := p.getLast? == some '/'

/-- The path selected by `parseSink` before any destination normalization:
for methods `btrfs` and `file` it is the `fullpath` group, otherwise the
`path` group (which may be absent). -/
def rawSinkPath (pm : URIMatch) : Option Str :=
  let method := pm.method.getD btrfsName
  if method = btrfsName ∨ method = "file".toList then some pm.fullpath
  else pm.path

/-- The host selected by `parseSink`: `None` for methods `btrfs` and `file`,
otherwise the `host` group. -/
def sinkHost (pm : URIMatch) : Option Str :=
  let method := pm.method.getD btrfsName
  if method = btrfsName ∨ method = "file".toList then none
  else some pm.host

/-- A parsed sink, the result of `parseSink`: the constructor arguments
`(host, path, mode, dryrun)` of the selected store class, together with the
method that selected the class. -/
structure Sink where
  method : Str
  host : Option Str
  path : Option Str
  mode : Mode
  dryrun : Bool
deriving DecidableEq, Repr

/-- Shallow embedding of `parseSink(uri, isDest, willDelete, dryrun)`.
`Except.error` models an escaping Python exception; `Except.ok none` models
the `return None` for a `None` uri.  Note that when `isDest` holds and the
selected path is `None` (a method with host but no `/` in the URI), Python
raises `AttributeError` at `path.endswith("/")`; and that the `Sinks`
dictionary has keys `btrfs`, `s3`, `ssh` only (the `file` entry is commented
out), so any other method raises `KeyError`. -/
def parseSink (uri : Option Str) (isDest willDelete dryrun : Bool) :
    Except PErr (Option Sink) :=
  match uri with
  | none => Except.ok none
  | some u =>
    match matchURI u with
    | none => Except.error (PErr.parseErr u)
    | some pm =>
      let method := pm.method.getD btrfsName
      let path0 := rawSinkPath pm
      let normalized : Except PErr (Option Str) :=
        if isDest then
          match path0 with
          | none => Except.error PErr.attrErr
          | some p =>
            Except.ok (some (if endswithSlash p then p else p ++ ['/']))
        else Except.ok path0
      match normalized with
      | Except.error e => Except.error e
      | Except.ok path1 =>
        let mode := if !isDest then Mode.r
          else if willDelete then Mode.w else Mode.a
        if method = btrfsName ∨ method = "s3".toList ∨ method = "ssh".toList then
          Except.ok (some ⟨method, sinkHost pm, path1, mode, dryrun⟩)
        else Except.error (PErr.keyErr method)

/-- A btrfs snapshot volume as consumed by the driver.  The `Volume` class
itself lives in the `BestDiffs` module, which is not part of the embedded
source; the driver only reads `uuid` and `otime` and relies on equality.
Modelled from the spec: Volume equality and hashing are by `uuid` (section
4.1), so the Python set operations of the driver are modelled with
uuid comparisons; `size` is the logical size attribute of section 3. -/
structure Vol where
  uuid : Nat
  otime : Nat
  size : Nat
deriving DecidableEq, Repr

/-- A candidate parent-to-child diff, as consumed by the driver:
`main` reads `diff.toUUID` and `diff.toVol.otime` and calls `diff.sendTo`.
Modelled from the spec: these are the Diff attributes of section 3; the
child volume record is kept whole so its `otime` and logical `size` are
available. -/
structure Diff where
  toUUID : Nat
  fromUUID : Option Nat
  toVol : Vol
deriving DecidableEq, Repr

/-- The first value produced by `best.iterDiffs()` in a round: the iterator
may be exhausted immediately (`StopIteration`), yield `None` (an unreachable
volume), or yield a diff. -/
inductive PlanFirst where
  | stopIter
  | noneDiff
  | someDiff (d : Diff)
deriving DecidableEq, Repr

/-- Observable calls the driver makes into its collaborator stores and the
planner, recorded as a trace.  `parse b` is a `parseSink` call with
`isDest = b` (which also constructs and opens the store object); `listVols b`
is `listVolumes` on the destination (`b = true`) or source; `plan m vs` is the
construction of `BestDiffs(vs, delete, m)` plus `analyze`; `send d` is
`diff.sendTo(dest, ...)`. -/
inductive Ev where
  | parse (isDest : Bool)
  | rescan
  | listVols (dest : Bool)
  | printItem (s : Str)
  | deletePartials
  | plan (measure : Bool) (vols : List Vol)
  | send (d : Diff)
  | deleteUnused
deriving DecidableEq, Repr

/-- Outcome of one iteration of the `while True` loop: fall through to the
next iteration, return from `main` with a code (`break` reaches the final
`return 0`), or raise an exception. -/
inductive RoundOut where
  | next
  | ret (code : Nat)
  | exc (e : PErr)
deriving DecidableEq, Repr

/-- Oracles abstracting the store and planner modules that are not part of
the embedded source.  Per round `r`: `sourceVols r` is what
`source.listVolumes()` enumerates, `destVols r` what `dest.listVolumes()`
enumerates, `edges r p` what `source.getEdges(p)` returns, `planFirst r` the
first value of `best.iterDiffs()`, and `sendOk r` whether `sendTo` succeeds.
`rmatch pat p` abstracts `re.match(pattern, path) is not None`. -/
structure Env where
  isatty : Bool
  sourceVols : Nat → List Vol
  destVols : Nat → List Vol
  getPaths : Vol → List Str
  rmatch : Str → Str → Bool
  edges : Nat → Option Vol → List Diff
  planFirst : Nat → PlanFirst
  sendOk : Nat → Bool
  listContents : List Str
  serverResult : Except PErr Nat

/-- The parsed command-line arguments consumed by `main`.  `estimate` models
the `action="count"` flag: `none` when absent, `some n` for `n` occurrences;
`exclude` models `action="append"`: `none` when absent. -/
structure Args where
  source : Option Str
  dest : Str
  dryRun : Bool
  delete : Bool
  estimate : Option Nat
  exclude : Option (List Str)
  partSize : Nat
  server : Bool
deriving DecidableEq, Repr

/-- Model of `args.estimate < 2` under Python 2 comparison, where
`None < 2` is true. -/
def useQuota : Option Nat → Bool
  | none => true
  | some n => decide (n < 2)

/-- Model of `not args.estimate`, the `measureSize` argument passed to
`BestDiffs`: true exactly when the count is falsy (`None` or `0`). -/
def measureFlag : Option Nat → Bool
  | none => true
  | some n => n == 0

/-- Model of the local `is_excluded(vol)` of `main`: some path of the volume
matches some exclude pattern. -/
def is_excluded (env : Env) (pats : List Str) (vol : Vol) : Bool :=
  (env.getPaths vol).any fun p => pats.any fun pat => env.rmatch pat p

/-- Model of lines 266-274 of `main`: when `args.exclude` is truthy (a
non-empty list), keep only the volumes that are not excluded. -/
def applyExclude (env : Env) (excl : Option (List Str)) (vols : List Vol) :
    List Vol :=
  match excl with
  | none => vols
  | some pats =>
    if pats.isEmpty then vols
    else vols.filter fun v => !is_excluded env pats v

/-- The volume list a round plans over: the source enumeration after the
exclude filter. -/
def roundVolumes (env : Env) (args : Args) (r : Nat) : List Vol :=
  applyExclude env args.exclude (env.sourceVols r)

/-- Model of `list(set(volumes) & set(destVolumes))` with Volume equality by
uuid; the unspecified Python set iteration order is modelled as the source
enumeration order. -/
def commonVolumes (env : Env) (args : Args) (r : Nat) : List Vol :=
  (roundVolumes env args r).filter fun v =>
    (env.destVols r).any fun w => w.uuid == v.uuid

/-- Model of `list(set(volumes) - set(destVolumes))`, order as above. -/
def missingVolumes (env : Env) (args : Args) (r : Nat) : List Vol :=
  (roundVolumes env args r).filter fun v =>
    !((env.destVols r).any fun w => w.uuid == v.uuid)

/-- The last element of a stable ascending sort by `otime` (`sort` then
`[-1]`): the last-occurring volume of maximal `otime`. -/
def maxByOtimeLast : List Vol → Option Vol
  | [] => none
  | v :: vs =>
    match maxByOtimeLast vs with
    | none => some v
    | some m => if v.otime ≤ m.otime then some m else some v

/-- Model of lines 286-289 of `main`: `commonVolumes.sort(key=otime)` then
`commonVolumes[-1]`, or `None` when there is no common volume. -/
def latestCommonVolume (env : Env) (args : Args) (r : Nat) : Option Vol :=
  maxByOtimeLast (commonVolumes env args r)

/-- The diffs enumerated by `source.getEdges(latestCommonVolume)` in the
quota-free branch. -/
def nonQuotaDiffs (env : Env) (args : Args) (r : Nat) : List Diff :=
  env.edges r (latestCommonVolume env args r)

/-- Model of lines 292-294 of `main`: the edges whose `toUUID` belongs to a
missing volume. -/
def nonQuotaMissingDiffs (env : Env) (args : Args) (r : Nat) : List Diff :=
  (nonQuotaDiffs env args r).filter fun d =>
    (missingVolumes env args r).any fun v => v.uuid == d.toUUID

/-- The first element of a stable ascending sort by `toVol.otime`
(`sort(key=...)` then `[0]`): the first-occurring diff of minimal child
`otime`. -/
def minByOtimeFirst : List Diff → Option Diff
  | [] => none
  | d :: ds =>
    match minByOtimeFirst ds with
    | none => some d
    | some m => if d.toVol.otime ≤ m.toVol.otime then some d else some m

/-- The single-location (list) tail of a round, entered when the destination
slot is `None` after the swap of lines 226-228: when stderr is not a tty,
line 231 sets an attribute on the `None` destination and raises
`AttributeError`; otherwise rescan quota sizes under `useQuota`, probe
`source.listVolumes()` returning 1 when it is empty, else print the contents,
delete partial uploads when `--delete` was given, and return 0.  `pre` is the
trace of the preceding `parseSink` calls. -/
def listModeRound (env : Env) (args : Args) (r : Nat) (pre : List Ev) :
    List Ev × RoundOut :=
  match env.isatty with
  | false => (pre, RoundOut.exc PErr.attrErr)
  | true =>
    let evs1 := pre ++ (if useQuota args.estimate then [Ev.rescan] else [])
    let evs2 := evs1 ++ [Ev.listVols false]
    match env.sourceVols r with
    | [] => (evs2, RoundOut.ret 1)
    | _ :: _ =>
      (evs2 ++ env.listContents.map Ev.printItem
            ++ (if args.delete then [Ev.deletePartials] else []),
       RoundOut.ret 0)

/-- One iteration of the `while True` loop of `main` (lines 218-322),
returning the trace of collaborator calls and the iteration outcome.
Control flow, in source order: parse the source location (`isDest = False`),
parse the destination location (`isDest` = whether a source was given), swap
when no source was given (list mode, `listModeRound`); otherwise rescan
quota sizes under `useQuota`, probe `source.listVolumes()` and return 1 when
it is empty, enumerate the volumes, apply the exclude filter, and either
consult the planner (quota path: take the first planned diff, on
`StopIteration` optionally prune and break, on `None` raise, else send it)
or compute the missing volumes directly (quota-free path: break when nothing
is missing, else send the oldest missing diff from the latest common
volume's edges, `missingDiffs[0]` raising `IndexError` when empty). -/
def runRound (env : Env) (args : Args) (r : Nat) : List Ev × RoundOut :=
  match parseSink args.source false args.delete args.dryRun with
  | Except.error e => ([Ev.parse false], RoundOut.exc e)
  | Except.ok srcOpt =>
    match parseSink (some args.dest) srcOpt.isSome args.delete args.dryRun with
    | Except.error e =>
      ([Ev.parse false, Ev.parse srcOpt.isSome], RoundOut.exc e)
    | Except.ok destParsed =>
      match srcOpt with
      | none =>
        -- no source given: the parsed destination becomes the source and the
        -- destination slot is None (list mode)
        listModeRound env args r [Ev.parse false, Ev.parse false]
      | some _ =>
        match destParsed with
        | none =>
          -- not reachable for a string destination uri (`parseSink` returns
          -- `ok none` only for a `None` uri); Python would fall into the
          -- `dest is None` list path, which is modelled faithfully here
          listModeRound env args r [Ev.parse false, Ev.parse true]
        | some _ =>
          -- two-location (synchronization) mode
          let pre := [Ev.parse false, Ev.parse true]
          let evs1 :=
            pre ++ (if useQuota args.estimate then [Ev.rescan] else [])
          let evs2 := evs1 ++ [Ev.listVols false]
          match env.sourceVols r with
          | [] => (evs2, RoundOut.ret 1)
          | _ :: _ =>
            let evs3 := evs2 ++ [Ev.listVols false]
            let vols := roundVolumes env args r
            if useQuota args.estimate then
              let evs4 := evs3 ++ [Ev.plan (measureFlag args.estimate) vols]
              match env.planFirst r with
              | PlanFirst.stopIter =>
                (evs4 ++ (if args.delete then [Ev.deleteUnused] else []),
                 RoundOut.ret 0)
              | PlanFirst.noneDiff => (evs4, RoundOut.exc PErr.missingDiff)
              | PlanFirst.someDiff d =>
                (evs4 ++ [Ev.send d],
                 if env.sendOk r then RoundOut.next
                 else RoundOut.exc PErr.sendErr)
            else
              let evs4 := evs3 ++ [Ev.listVols true]
              if (missingVolumes env args r).isEmpty then
                (evs4, RoundOut.ret 0)
              else
                match minByOtimeFirst (nonQuotaMissingDiffs env args r) with
                | none => (evs4, RoundOut.exc PErr.indexErr)
                | some d =>
                  (evs4 ++ [Ev.send d],
                   if env.sendOk r then RoundOut.next
                   else RoundOut.exc PErr.sendErr)

/-- The `while True` loop starting at round `r`, with fuel bounding the
number of iterations: `none` models a run that has not terminated within the
fuel.  On `RoundOut.ret` the loop body returned from `main`; on
`RoundOut.exc` the exception propagates out of the loop. -/
def runLoop (env : Env) (args : Args) : Nat → Nat → List Ev × Option (Except PErr Nat)
  | _, 0 => ([], none)
  | r, fuel + 1 =>
    match runRound env args r with
    | (evs, RoundOut.next) =>
      let (evs2, res) := runLoop env args (r + 1) fuel
      (evs ++ evs2, res)
    | (evs, RoundOut.ret n) => (evs, some (Except.ok n))
    | (evs, RoundOut.exc e) => (evs, some (Except.error e))

/-- The body of the `try` block of `main`: in `--server` mode run the proxy
server, otherwise run the transfer loop from round 1. -/
def mainBody (env : Env) (args : Args) (fuel : Nat) :
    List Ev × Option (Except PErr Nat) :=
  if args.server then ([], some env.serverResult)
  else runLoop env args 1 fuel

/-- The whole of the source's `main` (the name `main` is reserved in Lean):
any `Exception` escaping the body is caught by the handler of lines 327-338,
which logs and returns 1. -/
def mainFn (env : Env) (args : Args) (fuel : Nat) : List Ev × Option Nat :=
  match mainBody env args fuel with
  | (evs, none) => (evs, none)
  | (evs, some (Except.ok n)) => (evs, some n)
  | (evs, some (Except.error _)) => (evs, some 1)

/-- Model of `sys.exit(main())` together with argument parsing: an argparse
usage error raises `SystemExit(2)`, which is not an `Exception` and therefore
is not caught by the handler of `main`; the process exits with status 2.
Otherwise the process exit status is `main`'s return value. -/
def processExit (argsR : Except Unit Args) (env : Env) (fuel : Nat) :
    Option Nat :=
  match argsR with
  | Except.error _ => some 2
  | Except.ok args => (mainFn env args fuel).2

/-- Flag state for the trace checker of the re-planning discipline: which of
the four kinds of preparation events (source parse, destination parse, volume
enumeration, planning) have occurred since the previous transfer. -/
structure Flags where
  pS : Bool
  pD : Bool
  lv : Bool
  pl : Bool
deriving DecidableEq, Repr

/-- All four flags cleared. -/
def flagsClear : Flags := ⟨false, false, false, false⟩

/-- One step of the trace checker: preparation events set their flag; a
`send` event is legal only when all four flags are set, and clears them. -/
def chkStep (f : Flags) : Ev → Option Flags
  | Ev.parse b => some (if b then { f with pD := true } else { f with pS := true })
  | Ev.listVols _ => some { f with lv := true }
  | Ev.plan _ _ => some { f with pl := true }
  | Ev.send _ => if f.pS && f.pD && f.lv && f.pl then some flagsClear else none
  | _ => some f

/-- Run the trace checker over a trace.  `chkRun f tr ≠ none` says: every
`send` in `tr` is preceded, since the previous `send` (or since the start of
the trace), by a source parse, a destination parse, a volume enumeration and
a planner invocation. -/
def chkRun (f : Flags) : List Ev → Option Flags
  | [] => some f
  | e :: l =>
    match chkStep f e with
    | none => none
    | some f2 => chkRun f2 l

/-- The number of `send` events (transfers) in a trace. -/
def countSends (l : List Ev) : Nat :=
  l.countP fun e => match e with | Ev.send _ => true | _ => false

/-- The number of `plan` events (`BestDiffs` constructions) in a trace. -/
def countPlans (l : List Ev) : Nat :=
  l.countP fun e => match e with | Ev.plan _ _ => true | _ => false

theorem chkRun_append (a b : List Ev) : ∀ f,
    chkRun f (a ++ b) = (chkRun f a).bind fun g => chkRun g b := by
  induction a with
  | nil => intro f; simp [chkRun]
  | cons e l ih =>
    intro f
    simp only [List.cons_append, chkRun]
    cases chkStep f e with
    | none => simp
    | some f2 => simp [ih]

theorem chkRun_printItems (l : List Str) : ∀ f,
    chkRun f (l.map Ev.printItem) = some f := by
  induction l with
  | nil => intro f; simp [chkRun]
  | cons s l ih => intro f; simp [chkRun, chkStep, ih]

/-- Every branch of a round passes the trace checker from any starting flag
state, provided quota estimation is in use (so that a planner invocation
precedes the transfer). -/
theorem chkRun_runRound (env : Env) (args : Args) (r : Nat)
    (hq : useQuota args.estimate = true) (f : Flags) :
    (chkRun f (runRound env args r).1).isSome = true := by
  unfold runRound listModeRound
  repeat' split
  all_goals simp_all [chkRun_append, chkRun, chkStep, chkRun_printItems, flagsClear]

theorem countSends_printItems (l : List Str) :
    countSends (l.map Ev.printItem) = 0 := by
  induction l with
  | nil => simp [countSends]
  | cons s l ih => simp only [List.map_cons, countSends, List.countP_cons]; simp [ih]

theorem countP_send_printItems (l : List Str) :
    List.countP
      ((fun e => match e with | Ev.send _ => true | _ => false) ∘ Ev.printItem)
      l = 0 := by
  induction l with
  | nil => simp
  | cons s l ih => simp only [List.countP_cons]; simp [ih]

/-- At most one transfer happens in any single loop iteration, in either
sizing mode. -/
theorem countSends_runRound (env : Env) (args : Args) (r : Nat) :
    countSends (runRound env args r).1 ≤ 1 := by
  unfold runRound listModeRound
  repeat' split
  all_goals simp_all [countSends, countSends_printItems, List.countP_cons,
    List.countP_append, countP_send_printItems]

/-- The whole transfer loop passes the trace checker under quota
estimation. -/
theorem chkRun_runLoop (env : Env) (args : Args)
    (hq : useQuota args.estimate = true) :
    ∀ fuel r f, (chkRun f (runLoop env args r fuel).1).isSome = true := by
  intro fuel
  induction fuel with
  | zero => intro r f; simp [runLoop, chkRun]
  | succ n ih =>
    intro r f
    have hr := chkRun_runRound env args r hq f
    rcases h : runRound env args r with ⟨evs, out⟩
    rw [h] at hr
    cases out with
    | next =>
      rcases h2 : runLoop env args (r + 1) n with ⟨evs2, res⟩
      simp only [runLoop, h, h2]
      rcases Option.isSome_iff_exists.mp hr with ⟨g, hg⟩
      have := ih (r + 1) g
      rw [h2] at this
      simp [chkRun_append, hg, this]
    | ret n2 => simpa [runLoop, h] using hr
    | exc e => simpa [runLoop, h] using hr

section Fixtures

/-- Witness fixture: a source volume already on the destination. -/
def volA : Vol := ⟨1, 1, 100⟩

/-- Witness fixture: a source volume missing from the destination. -/
def volB : Vol := ⟨2, 10, 100⟩

/-- Witness fixture: a later, cheaper source volume also missing. -/
def volC : Vol := ⟨3, 20, 5⟩

/-- Witness fixture: the diff from `volA` to `volB`. -/
def diffAB : Diff := ⟨2, some 1, volB⟩

/-- Witness fixture: the diff from `volA` to `volC`. -/
def diffAC : Diff := ⟨3, some 1, volC⟩

/-- Witness fixture environment: two source volumes, one already present on
the destination; the planner yields the missing diff in round 1 and is
exhausted in round 2; transfers succeed. -/
def envW : Env where
  isatty := true
  sourceVols := fun _ => [volA, volB]
  destVols := fun _ => [volA]
  getPaths := fun _ => []
  rmatch := fun _ _ => false
  edges := fun _ _ => []
  planFirst := fun r => if r = 1 then PlanFirst.someDiff diffAB else PlanFirst.stopIter
  sendOk := fun _ => true
  listContents := ["itemA".toList]
  serverResult := Except.ok 0

/-- Witness fixture arguments: plain two-location invocation. -/
def argsW : Args where
  source := some "src/".toList
  dest := "dst/".toList
  dryRun := false
  delete := false
  estimate := none
  exclude := none
  partSize := 20
  server := false

end Fixtures

/-- C1: For every run of the main transfer loop, at most one diff is
transferred per planning round: the driver takes only the first diff from
the planner's iterator, sends it to the destination, then discards the plan,
re-parses and re-opens both stores, re-enumerates volumes, and plans again
before any further transfer.  Formalized: (a) under quota estimation (the
mode in which the planner is consulted) the loop trace passes the checker
`chkRun`, i.e. every transfer is preceded — since the previous transfer — by
a fresh source parse, destination parse, volume enumeration, and planner
invocation; and (b) unconditionally, each loop iteration performs at most
one transfer. -/
theorem one_transfer_per_planning_round (env : Env) (args : Args) (fuel : Nat)
    (hq : useQuota args.estimate = true) :
    (chkRun flagsClear (runLoop env args 1 fuel).1).isSome = true ∧
    ∀ r, countSends (runRound env args r).1 ≤ 1 :=
  ⟨chkRun_runLoop env args hq fuel 1 flagsClear,
   fun r => countSends_runRound env args r⟩

/-- Witness for C1 at a concrete environment and arguments. -/
theorem one_transfer_per_planning_round_witness :
    (chkRun flagsClear (runLoop envW argsW 1 3).1).isSome = true ∧
    countSends (runRound envW argsW 1).1 ≤ 1 :=
  ⟨(one_transfer_per_planning_round envW argsW 3 (by decide)).1,
   (one_transfer_per_planning_round envW argsW 3 (by decide)).2 1⟩

/-- C4: When delete mode is enabled, destination pruning (`deleteUnused`) is
invoked only after a fully successful synchronization round with no
unreachable volumes — exactly when the planner yields no further diffs
(`StopIteration` on the first pull) — and never after a round that failed or
reported an unreachable volume (the planner yielding `None` raises, and the
handler returns 1 without pruning). -/
theorem deleteUnused_exactly_on_empty_plan (env : Env) (args : Args) (r : Nat) :
    (Ev.deleteUnused ∈ (runRound env args r).1 ↔
      args.delete = true ∧ env.planFirst r = PlanFirst.stopIter ∧
        ∃ m vs, Ev.plan m vs ∈ (runRound env args r).1) ∧
    ((∃ m vs, Ev.plan m vs ∈ (runRound env args r).1) →
      env.planFirst r = PlanFirst.noneDiff →
      Ev.deleteUnused ∉ (runRound env args r).1 ∧
      (runRound env args r).2 = RoundOut.exc PErr.missingDiff) ∧
    (Ev.deleteUnused ∈ (runRound env args r).1 →
      (runRound env args r).2 = RoundOut.ret 0) := by
  rcases h : runRound env args r with ⟨evs, out⟩
  simp only [h]
  unfold runRound listModeRound at h
  repeat' split at h
  all_goals (cases h; simp_all)

/-- Witness fixture environment: source and destination already in sync, so
the planner is immediately exhausted. -/
def envD : Env where
  isatty := true
  sourceVols := fun _ => [volA]
  destVols := fun _ => [volA]
  getPaths := fun _ => []
  rmatch := fun _ _ => false
  edges := fun _ _ => []
  planFirst := fun _ => PlanFirst.stopIter
  sendOk := fun _ => true
  listContents := []
  serverResult := Except.ok 0

/-- Witness fixture environment: the planner reports an unreachable volume
(yields `None`) in every round. -/
def envM : Env where
  isatty := true
  sourceVols := fun _ => [volA, volB]
  destVols := fun _ => [volA]
  getPaths := fun _ => []
  rmatch := fun _ _ => false
  edges := fun _ _ => []
  planFirst := fun _ => PlanFirst.noneDiff
  sendOk := fun _ => true
  listContents := []
  serverResult := Except.ok 0

/-- Witness fixture arguments: like `argsW` but with `--delete`. -/
def argsD : Args where
  source := some "src/".toList
  dest := "dst/".toList
  dryRun := false
  delete := true
  estimate := none
  exclude := none
  partSize := 20
  server := false

/-- Witness for C4: with `--delete` and an exhausted planner the pruning runs
and the round returns 0; with an unreachable volume the round raises instead. -/
theorem deleteUnused_exactly_on_empty_plan_witness :
    Ev.deleteUnused ∈ (runRound envD argsD 1).1 ∧
    (runRound envD argsD 1).2 = RoundOut.ret 0 ∧
    (runRound envM argsW 1).2 = RoundOut.exc PErr.missingDiff :=
  have h1 : Ev.deleteUnused ∈ (runRound envD argsD 1).1 :=
    (deleteUnused_exactly_on_empty_plan envD argsD 1).1.mpr
      ⟨rfl, rfl, measureFlag argsD.estimate, roundVolumes envD argsD 1, by decide⟩
  ⟨h1, (deleteUnused_exactly_on_empty_plan envD argsD 1).2.2 h1,
   ((deleteUnused_exactly_on_empty_plan envM argsW 1).2.1
      ⟨measureFlag argsW.estimate, roundVolumes envM argsW 1, by decide⟩ rfl).2⟩

/-- C3: The estimate count selects the sizing policy: exact measurement
(`not args.estimate` passed to `BestDiffs`) is requested iff the flag is
absent or zero (count falsy); with the flag given once, measurement is off
while quota is still used; quota data is consulted iff the count is less
than 2, and `rescanSizes` runs on the source exactly in that case (in a
synchronization round whose two `parseSink` calls succeed). -/
theorem estimate_count_policy :
    (∀ est, measureFlag est = true ↔ (est = none ∨ est = some 0)) ∧
    (measureFlag (some 1) = false ∧ useQuota (some 1) = true) ∧
    (useQuota none = true ∧ ∀ n, useQuota (some n) = true ↔ n < 2) ∧
    (∀ env args r m vs, Ev.plan m vs ∈ (runRound env args r).1 →
      m = measureFlag args.estimate) ∧
    (∀ env args r s1 s2,
      parseSink args.source false args.delete args.dryRun =
        Except.ok (some s1) →
      parseSink (some args.dest) true args.delete args.dryRun =
        Except.ok (some s2) →
      (Ev.rescan ∈ (runRound env args r).1 ↔ useQuota args.estimate = true)) := by
  refine ⟨?_, ?_, ?_, ?_, ?_⟩
  · intro est
    cases est with
    | none => simp [measureFlag]
    | some n => simp [measureFlag]
  · exact ⟨rfl, rfl⟩
  · refine ⟨rfl, ?_⟩
    intro n
    simp [useQuota]
  · intro env args r m vs hm
    rcases h : runRound env args r with ⟨evs, out⟩
    rw [h] at hm
    unfold runRound listModeRound at h
    repeat' split at h
    all_goals (cases h; simp_all)
  · intro env args r s1 s2 h1 h2
    rcases h : runRound env args r with ⟨evs, out⟩
    simp only [h]
    unfold runRound listModeRound at h
    rw [h1] at h
    simp only [Option.isSome_some] at h
    rw [h2] at h
    repeat' split at h
    all_goals (cases h; simp_all)

/-- Witness for C3 at a concrete environment and arguments. -/
theorem estimate_count_policy_witness :
    measureFlag none = true ∧
    Ev.rescan ∈ (runRound envW argsW 1).1 :=
  ⟨(estimate_count_policy.1 none).mpr (Or.inl rfl),
   (estimate_count_policy.2.2.2.2 envW argsW 1
      ⟨btrfsName, none, some "src/".toList, Mode.r, false⟩
      ⟨btrfsName, none, some "dst/".toList, Mode.a, false⟩
      (by decide) (by decide)).mpr (by decide)⟩

theorem runRound_ret_code (env : Env) (args : Args) (r : Nat) (n : Nat)
    (h : (runRound env args r).2 = RoundOut.ret n) : n = 0 ∨ n = 1 := by
  rcases hr : runRound env args r with ⟨evs, out⟩
  rw [hr] at h
  unfold runRound listModeRound at hr
  repeat' split at hr
  all_goals (cases hr; simp_all)

theorem runLoop_ok_code (env : Env) (args : Args) :
    ∀ fuel r n, (runLoop env args r fuel).2 = some (Except.ok n) →
      n = 0 ∨ n = 1 := by
  intro fuel
  induction fuel with
  | zero => intro r n h; simp [runLoop] at h
  | succ k ih =>
    intro r n h
    rcases hr : runRound env args r with ⟨evs, out⟩
    cases out with
    | next =>
      rcases h2 : runLoop env args (r + 1) k with ⟨evs2, res⟩
      rw [runLoop, hr, h2] at h
      simp at h
      exact ih (r + 1) n (by rw [h2]; simpa using h)
    | ret m =>
      rw [runLoop, hr] at h
      simp at h
      exact h ▸ runRound_ret_code env args r m (by rw [hr])
    | exc e =>
      rw [runLoop, hr] at h
      simp at h

/-- C5: The process exit status is 0 on full success, 1 when a fatal error
occurs or a volume cannot be fully replicated, and 2 on a usage error.
Formalized: a usage error exits with 2 (argparse raises `SystemExit(2)`,
which the `except Exception` handler does not catch); every exception
escaping the loop body makes `main` return 1; in non-server mode `main`
returns only 0 or 1; and a round that raises (in particular the
`missingDiff` exception raised when the planner yields `None`) terminates
the loop with that error. -/
theorem exit_code_policy :
    (∀ env fuel, processExit (Except.error ()) env fuel = some 2) ∧
    (∀ env args fuel e, (mainBody env args fuel).2 = some (Except.error e) →
      (mainFn env args fuel).2 = some 1) ∧
    (∀ env args fuel n, args.server = false →
      (mainFn env args fuel).2 = some n → n = 0 ∨ n = 1) ∧
    (∀ env args r fuel e, (runRound env args r).2 = RoundOut.exc e →
      (runLoop env args r (fuel + 1)).2 = some (Except.error e)) := by
  refine ⟨?_, ?_, ?_, ?_⟩
  · intro env fuel; rfl
  · intro env args fuel e h
    rcases hb : mainBody env args fuel with ⟨evs, res⟩
    rw [hb] at h
    simp at h
    simp [mainFn, hb, h]
  · intro env args fuel n hs h
    rcases hb : mainBody env args fuel with ⟨evs, res⟩
    simp [mainFn, hb] at h
    have hb2 : runLoop env args 1 fuel = (evs, res) := by
      simpa [mainBody, hs] using hb
    cases res with
    | none => simp at h
    | some x =>
      cases x with
      | ok k =>
        simp at h
        exact h ▸ runLoop_ok_code env args fuel 1 k (by rw [hb2])
      | error e =>
        simp at h
        exact Or.inr h.symm
  · intro env args r fuel e h
    rcases hr : runRound env args r with ⟨evs, out⟩
    rw [hr] at h
    simp at h
    simp [runLoop, hr, h]

/-- Witness for C5 at concrete environments and arguments. -/
theorem exit_code_policy_witness :
    processExit (Except.error ()) envW 1 = some 2 ∧
    (mainFn envM argsW 2).2 = some 1 ∧
    ((0 : Nat) = 0 ∨ (0 : Nat) = 1) ∧
    (runLoop envM argsW 1 1).2 = some (Except.error PErr.missingDiff) :=
  ⟨exit_code_policy.1 envW 1,
   exit_code_policy.2.1 envM argsW 2 PErr.missingDiff (by decide),
   exit_code_policy.2.2.1 envW argsW 3 0 rfl (by decide),
   exit_code_policy.2.2.2 envM argsW 1 0 PErr.missingDiff (by decide)⟩

theorem endswithSlash_append_slash (p : Str) :
    endswithSlash (p ++ ['/']) = true := by
  simp [endswithSlash, List.getLast?_concat]

/-- C6: For every parsed location, the open mode is determined solely by the
role and the delete flag: a source is always opened in read mode; a
destination is opened in write mode iff deletion is permitted, and in append
mode otherwise. -/
theorem open_mode_by_role (uri : Option Str) (isDest willDelete dryrun : Bool)
    (s : Sink)
    (h : parseSink uri isDest willDelete dryrun = Except.ok (some s)) :
    s.mode = if isDest then (if willDelete then Mode.w else Mode.a)
             else Mode.r := by
  cases isDest <;> cases willDelete <;>
    (unfold parseSink at h
     repeat' (first | split at h | simp only [] at h)
     any_goals simp_all
     all_goals exact h ▸ rfl)

/-- Witness for C6: a destination with deletion permitted opens in write
mode. -/
theorem open_mode_by_role_witness :
    (Sink.mk btrfsName none (some "dst/".toList) Mode.w false).mode =
      if true then (if true then Mode.w else Mode.a) else Mode.r :=
  open_mode_by_role (some "dst/".toList) true true false
    (Sink.mk btrfsName none (some "dst/".toList) Mode.w false) (by decide)

/-- C7: Every URI successfully parsed as a destination receives a path
ending in a slash (a missing trailing slash is appended); a URI parsed as a
source keeps the raw path of the regular-expression match unmodified. -/
theorem dest_path_normalized :
    (∀ u w dr s, parseSink (some u) true w dr = Except.ok (some s) →
      ∃ p, s.path = some p ∧ endswithSlash p = true) ∧
    (∀ u w dr s, parseSink (some u) false w dr = Except.ok (some s) →
      ∃ pm, matchURI u = some pm ∧ s.path = rawSinkPath pm) := by
  constructor
  · intro u w dr s h
    unfold parseSink at h
    repeat' (first | split at h | simp only [] at h)
    any_goals simp_all
    all_goals
      rename_i hm hd
      split at hm
      · simp_all
      · rename_i p2 hp2
        simp only [Except.ok.injEq] at hm
        subst hm
        rw [← h]
        by_cases hsl : endswithSlash p2 = true
        · exact ⟨p2, by simp [hsl], hsl⟩
        · exact ⟨p2 ++ ['/'], by simp [hsl], endswithSlash_append_slash p2⟩
  · intro u w dr s h
    unfold parseSink at h
    repeat' (first | split at h | simp only [] at h)
    any_goals simp_all
    all_goals exact h ▸ rfl

/-- Witness for C7: `data/sub` as destination gains a trailing slash; the
same string as source keeps its raw matched path (without a slash). -/
theorem dest_path_normalized_witness :
    (∃ p, (Sink.mk btrfsName none (some "data/sub/".toList) Mode.a false).path
        = some p ∧ endswithSlash p = true) ∧
    (∃ pm, matchURI "data/sub".toList = some pm ∧
      (Sink.mk btrfsName none (some "data/sub".toList) Mode.r false).path
        = rawSinkPath pm) :=
  ⟨dest_path_normalized.1 "data/sub".toList false false
      (Sink.mk btrfsName none (some "data/sub/".toList) Mode.a false)
      (by decide),
   dest_path_normalized.2 "data/sub".toList false false
      (Sink.mk btrfsName none (some "data/sub".toList) Mode.r false)
      (by decide)⟩

theorem matchDotStarEnd_no_nl (p : Str) (h : ∀ c ∈ p, c ≠ nl) :
    matchDotStarEnd p = some p := by
  unfold matchDotStarEnd
  rw [if_pos]
  simp only [List.all_eq_true, Bool.not_eq_true']
  intro c hc
  exact beq_eq_false_iff_ne.mpr (h c hc)

theorem matchFullpath_isSome (f : Str) (h : ∀ c ∈ f, c ≠ nl) :
    (matchFullpath f).isSome = true := by
  unfold matchFullpath
  cases hd : f.dropWhile (fun c => !(c == '/')) with
  | nil => simp
  | cons c t =>
    have hsub : ∀ x ∈ t, x ≠ nl := by
      intro x hx
      exact h x ((List.dropWhile_suffix _).subset
        (hd ▸ List.mem_cons_of_mem c hx))
    simp [matchDotStarEnd_no_nl t hsub]

theorem matchURI_isSome_of_no_nl (u : Str) (h : ∀ c ∈ u, c ≠ nl) :
    (matchURI u).isSome = true := by
  unfold matchURI
  rcases Option.isSome_iff_exists.mp (matchFullpath_isSome u h) with ⟨v, hv⟩
  obtain ⟨a, b, c⟩ := v
  cases hs : splitMethod u with
  | none => simp [hv]
  | some pr =>
    obtain ⟨m, rest⟩ := pr
    cases hm : matchFullpath rest with
    | none => simp [hm, hv]
    | some w =>
      obtain ⟨a2, b2, c2⟩ := w
      simp [hm]

/-- Counterexample for C9: the URI pattern does not match every string.  The
path group `.*` cannot cross a newline and `$` only tolerates a newline that
ends the subject, so a URI with a newline after its first slash fails to
match and `parseSink` raises the "Can't parse snapshot store" exception. -/
theorem uri_regex_newline_cex :
    matchURI ("a/b".toList ++ [nl] ++ "c".toList) = none ∧
    parseSink (some ("a/b".toList ++ [nl] ++ "c".toList)) false false false =
      Except.error (PErr.parseErr ("a/b".toList ++ [nl] ++ "c".toList)) := by
  decide

/-- C9 (amended): the URI regular expression matches every newline-free
string (method, host and path groups are all optional or match any
characters other than a newline in the path position), so for such URIs the
"Can't parse snapshot store" branch of `parseSink` is unreachable. -/
theorem uri_regex_total_no_newline (u : Str) (h : ∀ c ∈ u, c ≠ nl) :
    (matchURI u).isSome = true ∧
    ∀ d w dr v, parseSink (some u) d w dr ≠
      Except.error (PErr.parseErr v) := by
  have hm := matchURI_isSome_of_no_nl u h
  refine ⟨hm, ?_⟩
  intro d w dr v hc
  unfold parseSink at hc
  simp only [] at hc
  rcases Option.isSome_iff_exists.mp hm with ⟨pm, hpm⟩
  rw [hpm] at hc
  repeat' (first | split at hc | simp only [] at hc)
  all_goals simp_all
  all_goals
    rename_i hq
    repeat' (first | split at hq | simp only [] at hq)
  all_goals simp_all

/-- Witness for the amended C9 at a concrete newline-free URI. -/
theorem uri_regex_total_no_newline_witness :
    (matchURI "s3://bucket/pre/".toList).isSome = true :=
  (uri_regex_total_no_newline "s3://bucket/pre/".toList (by decide)).1

/-- C8: When exclude patterns are supplied (a non-empty list), a source
volume is omitted from planning iff at least one of its paths matches at
least one of the given patterns; all other volumes are retained in order
(the filtered list is a sublist), and the volume list handed to the planner
is exactly the filtered enumeration.  `re.match` is abstracted as the
environment's match predicate. -/
theorem exclude_filter_semantics :
    (∀ env pats vols v, pats ≠ [] →
      (v ∈ applyExclude env (some pats) vols ↔
        v ∈ vols ∧ is_excluded env pats v = false)) ∧
    (∀ env pats v, is_excluded env pats v = true ↔
      ∃ p ∈ env.getPaths v, ∃ pat ∈ pats, env.rmatch pat p = true) ∧
    (∀ env vols, applyExclude env none vols = vols) ∧
    (∀ env pats vols, (applyExclude env (some pats) vols).Sublist vols) ∧
    (∀ env args r m vs, Ev.plan m vs ∈ (runRound env args r).1 →
      vs = applyExclude env args.exclude (env.sourceVols r)) := by
  refine ⟨?_, ?_, ?_, ?_, ?_⟩
  · intro env pats vols v hne
    simp [applyExclude, List.isEmpty_iff, hne, List.mem_filter]
  · intro env pats v
    simp [is_excluded, List.any_eq_true]
  · intro env vols; rfl
  · intro env pats vols
    show (if pats.isEmpty = true then vols
          else List.filter (fun v => !is_excluded env pats v) vols).Sublist vols
    by_cases hp : pats.isEmpty = true
    · rw [if_pos hp]
    · rw [if_neg hp]; exact List.filter_sublist vols
  · intro env args r m vs hm
    rcases h : runRound env args r with ⟨evs, out⟩
    rw [h] at hm
    unfold runRound listModeRound at h
    repeat' split at h
    all_goals (cases h; simp_all [roundVolumes])

/-- Witness fixture environment for the exclusion filter: `volB`'s path
matches the pattern, `volA`'s does not. -/
def envX : Env where
  isatty := true
  sourceVols := fun _ => [volA, volB]
  destVols := fun _ => [volA]
  getPaths := fun v =>
    if v.uuid = 2 then ["home/b".toList] else ["root/a".toList]
  rmatch := fun pat p => pat == p
  edges := fun _ _ => []
  planFirst := fun _ => PlanFirst.stopIter
  sendOk := fun _ => true
  listContents := []
  serverResult := Except.ok 0

/-- Witness fixture arguments with an exclude pattern. -/
def argsX : Args where
  source := some "src/".toList
  dest := "dst/".toList
  dryRun := false
  delete := false
  estimate := none
  exclude := some ["home/b".toList]
  partSize := 20
  server := false

/-- Witness for C8: `volA` survives the filter, `volB` is excluded, and the
planner receives exactly the filtered list. -/
theorem exclude_filter_semantics_witness :
    (volA ∈ applyExclude envX (some ["home/b".toList]) [volA, volB]) ∧
    (is_excluded envX ["home/b".toList] volB = true) ∧
    ([volA] = applyExclude envX argsX.exclude (envX.sourceVols 1)) :=
  ⟨(exclude_filter_semantics.1 envX ["home/b".toList] [volA, volB] volA
      (by decide)).mpr ⟨by decide, by decide⟩,
   (exclude_filter_semantics.2.1 envX ["home/b".toList] volB).mpr
      ⟨"home/b".toList, by decide, "home/b".toList, by decide, by decide⟩,
   exclude_filter_semantics.2.2.2.2 envX argsX 1 true [volA] (by decide)⟩

theorem minByOtimeFirst_mem : ∀ (l : List Diff) (d : Diff),
    minByOtimeFirst l = some d → d ∈ l := by
  intro l
  induction l with
  | nil => intro d h; simp [minByOtimeFirst] at h
  | cons x xs ih =>
    intro d h
    rw [minByOtimeFirst] at h
    split at h
    · simp at h; simp [h]
    · rename_i m hx
      split at h <;> simp at h
      · simp [h]
      · exact List.mem_cons_of_mem x (h ▸ ih m hx)

theorem minByOtimeFirst_cons_isSome (x : Diff) (xs : List Diff) :
    (minByOtimeFirst (x :: xs)).isSome = true := by
  rw [minByOtimeFirst]
  split
  · simp
  · split <;> simp

theorem minByOtimeFirst_min : ∀ (l : List Diff) (d : Diff),
    minByOtimeFirst l = some d →
      ∀ d2 ∈ l, d.toVol.otime ≤ d2.toVol.otime := by
  intro l
  induction l with
  | nil => intro d h; simp [minByOtimeFirst] at h
  | cons x xs ih =>
    intro d h d2 hd2
    rw [minByOtimeFirst] at h
    split at h
    · rename_i hx
      cases xs with
      | nil =>
        simp at h
        simp at hd2
        simp [h, hd2]
      | cons y ys =>
        have hys := minByOtimeFirst_cons_isSome y ys
        rw [hx] at hys
        simp at hys
    · rename_i m hx
      split at h <;> simp at h <;> subst h <;>
        rcases List.mem_cons.mp hd2 with h2 | h2
      · subst h2; exact le_refl _
      · rename_i hle
        exact le_trans hle (ih m hx d2 h2)
      · subst h2
        rename_i hle
        omega
      · exact ih m hx d2 h2

theorem runRound_send_nonquota (env : Env) (args : Args) (r : Nat) (d : Diff)
    (hq : useQuota args.estimate = false)
    (hd : Ev.send d ∈ (runRound env args r).1) :
    minByOtimeFirst (nonQuotaMissingDiffs env args r) = some d := by
  rcases h : runRound env args r with ⟨evs, out⟩
  rw [h] at hd
  unfold runRound listModeRound at h
  repeat' split at h
  all_goals (cases h; simp_all)

/-- C2 (amended): When the estimate flag is given twice or more, quota use
is disabled (`rescanSizes` never runs) and the planner is bypassed entirely
(no `BestDiffs` invocation); instead the driver transfers the oldest missing
diff — the first diff of minimal child `otime` among the latest common
volume's edges into missing volumes — irrespective of any size. -/
theorem estimate2_bypasses_planner (env : Env) (args : Args) (r : Nat)
    (hq : useQuota args.estimate = false) :
    Ev.rescan ∉ (runRound env args r).1 ∧
    (∀ m vs, Ev.plan m vs ∉ (runRound env args r).1) ∧
    (∀ d, Ev.send d ∈ (runRound env args r).1 →
      d ∈ nonQuotaMissingDiffs env args r ∧
      ∀ d2 ∈ nonQuotaMissingDiffs env args r,
        d.toVol.otime ≤ d2.toVol.otime) := by
  refine ⟨?_, ?_, ?_⟩
  · intro hmem
    rcases h : runRound env args r with ⟨evs, out⟩
    rw [h] at hmem
    unfold runRound listModeRound at h
    repeat' split at h
    all_goals (cases h; simp_all)
  · intro m vs hmem
    rcases h : runRound env args r with ⟨evs, out⟩
    rw [h] at hmem
    unfold runRound listModeRound at h
    repeat' split at h
    all_goals (cases h; simp_all)
  · intro d hd
    have hs := runRound_send_nonquota env args r d hq hd
    exact ⟨minByOtimeFirst_mem _ d hs, minByOtimeFirst_min _ d hs⟩

/-- Counterexample fixture: the diff from `volB` to `volC`. -/
def diffBC : Diff := ⟨3, some 2, volC⟩

/-- Counterexample fixture environment: `volA` is common in round 1, `volB`
and `volC` are missing; after each transfer the destination enumeration
grows (`volB` resident from round 2, `volC` from round 3), so a run with
this environment synchronizes completely in two transfers. -/
def envC2 : Env where
  isatty := true
  sourceVols := fun _ => [volA, volB, volC]
  destVols := fun r =>
    if r = 1 then [volA]
    else if r = 2 then [volA, volB]
    else [volA, volB, volC]
  getPaths := fun _ => []
  rmatch := fun _ _ => false
  edges := fun _ lc =>
    match lc with
    | some v =>
      if v.uuid == 1 then [diffAB, diffAC]
      else if v.uuid == 2 then [diffBC]
      else []
    | none => []
  planFirst := fun _ => PlanFirst.stopIter
  sendOk := fun _ => true
  listContents := []
  serverResult := Except.ok 0

/-- Counterexample fixture arguments: the estimate flag given twice. -/
def argsC2 : Args where
  source := some "src/".toList
  dest := "dst/".toList
  dryRun := false
  delete := false
  estimate := some 2
  exclude := none
  partSize := 20
  server := false

/-- Counterexample for C2: with `--estimate --estimate` a complete,
successful run (two transfers, exit 0) contains no planner invocation at all
— `BestDiffs` is never constructed and no diff cost (child logical size or
otherwise) is ever computed or compared — and no quota rescan either.  This
contradicts the claim that in this mode "the planner still selects the
cheapest plan over those costs for every source volume": the driver's
transfers happen without any planner at all. -/
theorem estimate2_no_planner_cex :
    countPlans (mainFn envC2 argsC2 4).1 = 0 ∧
    countSends (mainFn envC2 argsC2 4).1 = 2 ∧
    Ev.send diffAB ∈ (mainFn envC2 argsC2 4).1 ∧
    Ev.send diffBC ∈ (mainFn envC2 argsC2 4).1 ∧
    Ev.rescan ∉ (mainFn envC2 argsC2 4).1 ∧
    (mainFn envC2 argsC2 4).2 = some 0 := by decide

/-- Witness for the amended C2 at the concrete counterexample environment. -/
theorem estimate2_bypasses_planner_witness :
    Ev.rescan ∉ (runRound envC2 argsC2 1).1 ∧
    diffAB ∈ nonQuotaMissingDiffs envC2 argsC2 1 ∧
    diffAB.toVol.otime ≤ diffAC.toVol.otime :=
  ⟨(estimate2_bypasses_planner envC2 argsC2 1 (by decide)).1,
   ((estimate2_bypasses_planner envC2 argsC2 1 (by decide)).2.2 diffAB
      (by decide)).1,
   ((estimate2_bypasses_planner envC2 argsC2 1 (by decide)).2.2 diffAB
      (by decide)).2 diffAC (by decide)⟩

theorem listModeRound_spec (env : Env) (args : Args) (r : Nat) (pre : List Ev)
    (v : Vol) (vs : List Vol)
    (htty : env.isatty = true) (hvols : env.sourceVols r = v :: vs) :
    listModeRound env args r pre =
      (pre ++ (if useQuota args.estimate then [Ev.rescan] else [])
           ++ [Ev.listVols false] ++ env.listContents.map Ev.printItem
           ++ (if args.delete then [Ev.deletePartials] else []),
       RoundOut.ret 0) := by
  unfold listModeRound
  rw [htty, hvols]

theorem parseSink_source_fields (u : Str) (w dr : Bool) (s : Sink)
    (h : parseSink (some u) false w dr = Except.ok (some s)) :
    s.mode = Mode.r ∧ ∃ pm, matchURI u = some pm ∧ s.path = rawSinkPath pm := by
  unfold parseSink at h
  repeat' (first | split at h | simp only [] at h)
  any_goals simp_all
  all_goals exact h ▸ ⟨rfl, rfl⟩

/-- C10 (amended): If the source argument is omitted — and stderr is a tty
(otherwise line 231 raises on the `None` destination) and the single
location lists at least one snapshot (otherwise `main` returns 1) — then the
location is parsed as a non-destination (read mode, raw path unmodified),
its contents are printed, partial uploads are deleted exactly when the
delete flag is set, and `main` returns 0 without any transfer. -/
theorem list_mode_behavior (env : Env) (args : Args) (fuel : Nat) (s : Sink)
    (v : Vol) (vs : List Vol)
    (hsrc : args.source = none) (hserver : args.server = false)
    (htty : env.isatty = true) (hvols : env.sourceVols 1 = v :: vs)
    (hdest : parseSink (some args.dest) false args.delete args.dryRun =
      Except.ok (some s)) :
    (mainFn env args (fuel + 1)).2 = some 0 ∧
    (∀ d, Ev.send d ∉ (mainFn env args (fuel + 1)).1) ∧
    (Ev.deletePartials ∈ (mainFn env args (fuel + 1)).1 ↔
      args.delete = true) ∧
    (∀ c ∈ env.listContents, Ev.printItem c ∈ (mainFn env args (fuel + 1)).1) ∧
    s.mode = Mode.r ∧
    (∃ pm, matchURI args.dest = some pm ∧ s.path = rawSinkPath pm) := by
  have hrr : runRound env args 1 =
      listModeRound env args 1 [Ev.parse false, Ev.parse false] := by
    unfold runRound
    rw [hsrc]
    have h1 : parseSink none false args.delete args.dryRun = Except.ok none :=
      rfl
    rw [h1]
    simp only [Option.isSome_none]
    rw [hdest]
  have hlm := listModeRound_spec env args 1 [Ev.parse false, Ev.parse false]
    v vs htty hvols
  have hmain : mainFn env args (fuel + 1) =
      ([Ev.parse false, Ev.parse false]
          ++ (if useQuota args.estimate then [Ev.rescan] else [])
          ++ [Ev.listVols false] ++ env.listContents.map Ev.printItem
          ++ (if args.delete then [Ev.deletePartials] else []),
       some 0) := by
    unfold mainFn mainBody
    rw [hserver]
    simp only [Bool.false_eq_true, if_false]
    rw [runLoop, hrr, hlm]
  refine ⟨by rw [hmain], ?_, ?_, ?_,
    (parseSink_source_fields args.dest args.delete args.dryRun s hdest).1,
    (parseSink_source_fields args.dest args.delete args.dryRun s hdest).2⟩
  · intro d
    rw [hmain]
    by_cases h1 : useQuota args.estimate = true <;>
      by_cases h2 : args.delete = true <;> simp [h1, h2]
  · rw [hmain]
    by_cases h1 : useQuota args.estimate = true <;>
      by_cases h2 : args.delete = true <;> simp [h1, h2]
  · intro c hc
    rw [hmain]
    by_cases h1 : useQuota args.estimate = true <;>
      by_cases h2 : args.delete = true <;> simp [h1, h2, hc]

/-- Counterexample fixture environment: the single location holds no
snapshots. -/
def envE : Env where
  isatty := true
  sourceVols := fun _ => []
  destVols := fun _ => []
  getPaths := fun _ => []
  rmatch := fun _ _ => false
  edges := fun _ _ => []
  planFirst := fun _ => PlanFirst.stopIter
  sendOk := fun _ => true
  listContents := []
  serverResult := Except.ok 0

/-- Fixture arguments for single-location (list) mode: no source given. -/
def argsL : Args where
  source := none
  dest := "d/".toList
  dryRun := false
  delete := false
  estimate := none
  exclude := none
  partSize := 20
  server := false

/-- Counterexample for C10: with the source argument omitted and a location
that lists no snapshots, `main` returns 1 (the empty-source check at lines
242-256 fires before the listing block), not 0 as the claim states. -/
theorem list_mode_empty_store_cex :
    (mainFn envE argsL 2).2 = some 1 ∧ (mainFn envE argsL 2).2 ≠ some 0 := by
  decide

/-- Witness fixture environment for list mode: one snapshot, some
contents. -/
def envL : Env where
  isatty := true
  sourceVols := fun _ => [volA]
  destVols := fun _ => []
  getPaths := fun _ => []
  rmatch := fun _ _ => false
  edges := fun _ _ => []
  planFirst := fun _ => PlanFirst.stopIter
  sendOk := fun _ => true
  listContents := ["snapA".toList]
  serverResult := Except.ok 0

/-- Witness for the amended C10 at a concrete environment. -/
theorem list_mode_behavior_witness :
    (mainFn envL argsL 1).2 = some 0 ∧
    (Sink.mk btrfsName none (some "d/".toList) Mode.r false).mode = Mode.r :=
  ⟨(list_mode_behavior envL argsL 0
      (Sink.mk btrfsName none (some "d/".toList) Mode.r false) volA [] rfl rfl
      rfl rfl (by decide)).1,
   (list_mode_behavior envL argsL 0
      (Sink.mk btrfsName none (some "d/".toList) Mode.r false) volA [] rfl rfl
      rfl rfl (by decide)).2.2.2.2.1⟩
